import Mathlib

/-!
# Verification of the `fake_rpi` NeoPixel buffer against its specification

This development shallowly embeds `fake_rpi/neopixel.py`: the channel-order
parser (`_parse_byteorder`), the color decoder (`_parse_color`), the dual
pre/post brightness buffers with the brightness setter, the indexed get/set
operations, and the standalone `colorwheel` helper.

Byte buffers are modelled as `List Nat`, Python floats as rationals (the module
only ever compares and scales by exact decimal constants), and fallible
operations return `Except PyError`.  Python `int()` on the nonnegative values
appearing here is rational floor.
-/

deriving instance DecidableEq for Except

unseal Rat.add Rat.mul Rat.inv Rat.sub

namespace FakeRpi

/-- The kinds of Python exceptions the module can raise. -/
inductive PyError where
  | valueError (msg : String)
  | indexError
  | nameError (missing : String)
  deriving DecidableEq, Repr

/-- Modelled from the spec: `DOTSTAR_LED_START` is referenced by `neopixel.py`
(line 231) but defined elsewhere in the repository.  The spec gives the dotstar
frame encoding as `(floor(w*31) & 0b00011111) | 0b11100000`, fixing the start
mask to `0b11100000`. -/
def DOTSTAR_LED_START : Nat := 0b11100000

/-- Modelled from the spec: `DOTSTAR_LED_BRIGHTNESS` is referenced by
`neopixel.py` (line 306) but defined elsewhere in the repository; the spec
decodes the brightness fraction as `(frame_byte & 0b00011111)/31.0`, fixing the
mask to `0b00011111`. -/
def DOTSTAR_LED_BRIGHTNESS : Nat := 0b00011111

/-- Modelled from the spec: `DOTSTAR_LED_START_FULL_BRIGHT` is referenced by
`neopixel.py` (line 75) but defined elsewhere in the repository; the spec calls
it the dotstar "full bright" sentinel `0b11111111`. -/
def DOTSTAR_LED_START_FULL_BRIGHT : Nat := 0b11111111

/-- Python `int()` applied to the nonnegative rationals arising in this module:
truncation, which is floor for nonnegative values. -/
def pyInt (q : ℚ) : Nat := q.floor.toNat

/-- Python `buf[i]` for a byte buffer (all reads in the module are in range). -/
def byteAt (l : List Nat) (i : Nat) : Nat := l.getD i 0

/-- The characters of the allowed alphabet string `"RGBWP"`. -/
def rgbwp : List Char := ['R', 'G', 'B', 'W', 'P']

/-- Python `s.strip(chars)`: remove leading and trailing characters that are
drawn from `chars` (used by `_parse_byteorder`, line 103). -/
def py_strip (l : List Char) (chars : List Char) : List Char :=
  ((l.dropWhile (fun c => decide (c ∈ chars))).reverse.dropWhile
    (fun c => decide (c ∈ chars))).reverse

/-- The tuple returned by `NeoPixel._parse_byteorder`. -/
structure ByteorderInfo where
  bpp : Nat
  byteorder : List Nat
  has_white : Bool
  dotstar_mode : Bool
  deriving DecidableEq, Repr

/-- `NeoPixel._parse_byteorder` (lines 83–123): validate the order string
against the alphabet `RGBWP`, look up the `R`/`G`/`B` positions (a missing one
raises `ValueError`), then check `W` before `P`. -/
def parse_byteorder (byteorder : String) : Except PyError ByteorderInfo :=
  let l := byteorder.toList
  let bpp := l.length
  if py_strip l rgbwp ≠ [] then
    .error (.valueError "Invalid Byteorder string")
  else if 'R' ∈ l then
    if 'G' ∈ l then
      if 'B' ∈ l then
        let r := l.indexOf 'R'
        let g := l.indexOf 'G'
        let b := l.indexOf 'B'
        if 'W' ∈ l then
          .ok ⟨bpp, [r, g, b, l.indexOf 'W'], true, false⟩
        else if 'P' ∈ l then
          .ok ⟨bpp, [r, g, b, l.indexOf 'P'], false, true⟩
        else
          .ok ⟨bpp, [r, g, b], false, false⟩
      else .error (.valueError "Invalid Byteorder string")
    else .error (.valueError "Invalid Byteorder string")
  else .error (.valueError "Invalid Byteorder string")

/-- The attributes a `NeoPixel` object carries after `__init__` (lines 36–80).
`byteorder_tuple` is the extra attribute assigned only in dotstar mode (line
67); note the source never reads it back. -/
structure NeoPixel where
  pixels : Nat
  bytes : Nat
  byteorder : List Nat
  byteorder_string : String
  has_white : Bool
  bpp : Nat
  pre_brightness_buffer : Option (List Nat)
  post_brightness_buffer : List Nat
  offset : Nat
  dotstar_mode : Bool
  pixel_step : Nat
  byteorder_tuple : Option (List Nat)
  brightness : ℚ
  auto_write : Bool
  deriving DecidableEq, Repr

/-- `NeoPixel.show` (lines 180–184): the write function of the fake driver is
`pass`, so it leaves the state unchanged. -/
def show' (self : NeoPixel) : NeoPixel := self

/-- The loop body of the brightness setter (lines 155–162): for each index `i`
in `[start, start+len)`, skip it when in dotstar mode `i % 4 ≠ check`,
otherwise store `int(pre[i] * b)`. -/
def brightness_loop (pre : List Nat) (dotstar : Bool) (check : Nat) (b : ℚ)
    (post : List Nat) (start len : Nat) : List Nat :=
  (List.range' start len).foldl
    (fun acc i =>
      if dotstar = true ∧ i % 4 ≠ check then acc
      else acc.set i (pyInt ((byteAt pre i : ℚ) * b)))
    post

/-- The `NeoPixel.brightness` setter (lines 142–165): clamp to `[0,1]`, no-op
when the change is within `0.001`, materialize the pre-brightness buffer from
the post-brightness buffer if absent, then rescale the pixel region.
`show` (called when `auto_write` is set) is `pass`, hence has no effect. -/
def set_brightness (self : NeoPixel) (value : ℚ) : NeoPixel :=
  let value := min (max value 0) 1
  let change := value - self.brightness
  if -(1/1000) < change ∧ change < 1/1000 then self
  else
    let brightness := value
    let pre := (self.pre_brightness_buffer).getD self.post_brightness_buffer
    let offset_check := self.offset % self.pixel_step
    let post := brightness_loop pre self.dotstar_mode offset_check brightness
        self.post_brightness_buffer self.offset self.bytes
    { self with
        brightness := brightness,
        pre_brightness_buffer := some pre,
        post_brightness_buffer := post }

/-- A dynamically typed color value: a packed integer, or a tuple/list of byte
values (the claims only exercise integer entries). -/
inductive PixelColor where
  | int (v : Nat)
  | seq (l : List Nat)
  deriving DecidableEq, Repr

/-- `NeoPixel._parse_color` (lines 198–245).  The fourth component `w` is
carried as a rational because the source assigns it the float `1.0` on the
dotstar default paths; on every path that stores it into a byte buffer it is
integer valued. -/
def parse_color (self : NeoPixel) (value : PixelColor) :
    Except PyError (Nat × Nat × Nat × ℚ) :=
  let first : Except PyError (Nat × Nat × Nat × ℚ) :=
    match value with
    | .int v =>
        .ok (v >>> 16, (v >>> 8) &&& 0xFF, v &&& 0xFF,
          if self.dotstar_mode = true then (1 : ℚ) else 0)
    | .seq l =>
        if l.length < 3 ∨ 4 < l.length then
          .error (.valueError ("Expected tuple of length " ++ toString self.bpp
            ++ ", got " ++ toString l.length))
        else if l.length = self.bpp then
          if self.bpp = 3 then
            .ok (l.getD 0 0, l.getD 1 0, l.getD 2 0, 0)
          else
            .ok (l.getD 0 0, l.getD 1 0, l.getD 2 0, (l.getD 3 0 : ℚ))
        else if l.length = 3 then
          .ok (l.getD 0 0, l.getD 1 0, l.getD 2 0,
            if self.dotstar_mode = true then (1 : ℚ) else 0)
        else
          .ok (0, 0, 0, 0)
  let int_or_len3 : Bool :=
    match value with
    | .int _ => true
    | .seq l => l.length == 3
  match first with
  | .error e => .error e
  | .ok (r, g, b, w) =>
      if self.bpp = 4 then
        if self.dotstar_mode = true then
          .ok (r, g, b,
            (((pyInt (w * 31)) &&& DOTSTAR_LED_BRIGHTNESS) ||| DOTSTAR_LED_START : Nat))
        else if self.has_white = true ∧ int_or_len3 = true ∧ r = g ∧ g = b then
          .ok (0, 0, 0, (r : ℚ))
        else
          .ok (r, g, b, w)
      else
        .ok (r, g, b, w)

/-- `NeoPixel._set_item` (lines 247–275): normalize a negative index once,
bounds-check, then write the raw channel values into the pre-brightness buffer
(when present) and the brightness-scaled values into the post-brightness
buffer; in dotstar mode `w` is already a frame byte and is not scaled. -/
def set_item (self : NeoPixel) (index : Int) (r g b : Nat) (w : ℚ) :
    Except PyError NeoPixel :=
  let index := if index < 0 then index + self.pixels else index
  if (self.pixels : Int) ≤ index ∨ index < 0 then .error .indexError
  else
    let i := index.toNat
    let offset := self.offset + i * self.bpp
    let pre : Option (List Nat) :=
      match self.pre_brightness_buffer with
      | none => none
      | some p =>
          let p := if self.bpp = 4 then
              p.set (offset + self.byteorder.getD 3 0) (pyInt w)
            else p
          some (((p.set (offset + self.byteorder.getD 0 0) r).set
              (offset + self.byteorder.getD 1 0) g).set
              (offset + self.byteorder.getD 2 0) b)
    let post := self.post_brightness_buffer
    let post :=
      if self.bpp = 4 then
        let w2 := if self.dotstar_mode = true then pyInt w
          else pyInt (w * self.brightness)
        post.set (offset + self.byteorder.getD 3 0) w2
      else post
    let post := ((post.set (offset + self.byteorder.getD 0 0)
        (pyInt ((r : ℚ) * self.brightness))).set
        (offset + self.byteorder.getD 1 0)
        (pyInt ((g : ℚ) * self.brightness))).set
        (offset + self.byteorder.getD 2 0)
        (pyInt ((b : ℚ) * self.brightness))
    .ok { self with
        pre_brightness_buffer := pre,
        post_brightness_buffer := post }

/-- `NeoPixel.__setitem__` (lines 277–288), single-index case: decode the color
then delegate to `_set_item`; `show` (when `auto_write`) is `pass`. -/
def setitem (self : NeoPixel) (index : Int) (val : PixelColor) :
    Except PyError NeoPixel :=
  match parse_color self val with
  | .error e => .error e
  | .ok (r, g, b, w) =>
      match set_item self index r g b w with
      | .error e => .error e
      | .ok s => .ok (if s.auto_write = true then show' s else s)

/-- `NeoPixel._getitem` (lines 290–308): read the channel bytes of one pixel
from the pre-brightness buffer when present, else the post-brightness buffer;
append the white byte for white specs, or the decoded brightness fraction for
dotstar specs. -/
def getitem_core (self : NeoPixel) (index : Nat) : List ℚ :=
  let start := self.offset + index * self.bpp
  let buffer := (self.pre_brightness_buffer).getD self.post_brightness_buffer
  let value : List ℚ :=
    [(byteAt buffer (start + self.byteorder.getD 0 0) : ℚ),
     (byteAt buffer (start + self.byteorder.getD 1 0) : ℚ),
     (byteAt buffer (start + self.byteorder.getD 2 0) : ℚ)]
  if self.has_white = true then
    value ++ [(byteAt buffer (start + self.byteorder.getD 3 0) : ℚ)]
  else if self.dotstar_mode = true then
    value ++ [((byteAt buffer (start + self.byteorder.getD 3 0)
      &&& DOTSTAR_LED_BRIGHTNESS : Nat) : ℚ) / 31]
  else value

/-- `NeoPixel.__getitem__` (lines 310–322), single-index case: normalize a
negative index once, bounds-check, then read. -/
def getitem (self : NeoPixel) (index : Int) : Except PyError (List ℚ) :=
  let index := if index < 0 then index + self.pixels else index
  if (self.pixels : Int) ≤ index ∨ index < 0 then .error .indexError
  else .ok (getitem_core self index.toNat)

/-- Pixel color order constant (line 13). -/
def GRB : String := "GRB"

/-- Pixel color order constant (line 17). -/
def GRBW : String := "GRBW"

/-- Resolution of the `pixel_order` construction argument (lines 26–31); the
index-tuple form of `pixel_order` is not exercised by any claim and all claims
quantify over order strings, so only the string form appears here. -/
def resolve_pixel_order (bpp : Nat) (pixel_order : Option String) : String :=
  match pixel_order with
  | none => if bpp = 3 then GRB else GRBW
  | some s => s

/-- The dotstar start-byte initialization loop of `__init__` (lines 74–75):
`for i in range(offset, bytes + offset, 4): buf[i] = DOTSTAR_LED_START_FULL_BRIGHT`. -/
def dotstar_init_loop (buf : List Nat) (start len : Nat) : List Nat :=
  (List.range' start ((len + 3) / 4) 4).foldl
    (fun acc i => acc.set i DOTSTAR_LED_START_FULL_BRIGHT) buf

/-- Modelled from the spec: `NeoPixel.__init__` (lines 24–81) with working
header/trailer handling.  The source body reads the names `header` and
`trailer` (lines 43–52) although they are not parameters and are defined
nowhere in the module; the spec lists them as optional construction inputs
(`construct(pixel_count, spec, brightness, auto_write, header?, trailer?)`), so
they are modelled here as optional byte regions (`none` = Python `None`).
Everything else follows the source body.  `NeoPixel_init_src` below is the
construction exactly as the source stands. -/
def NeoPixel_init (n : Nat) (bpp : Nat) (brightness : ℚ) (auto_write : Bool)
    (pixel_order : Option String) (header trailer : Option (List Nat)) :
    Except PyError NeoPixel :=
  let byteorder := resolve_pixel_order bpp pixel_order
  match parse_byteorder byteorder with
  | .error e => .error e
  | .ok info =>
      let effective_bpp := if info.dotstar_mode = true then 4 else info.bpp
      let bytes := effective_bpp * n
      let offset := (header.getD []).length
      let buf := (header.getD []) ++ List.replicate bytes 0 ++ (trailer.getD [])
      let s : NeoPixel := {
        pixels := n
        bytes := bytes
        byteorder := info.byteorder
        byteorder_string := byteorder
        has_white := info.has_white
        bpp := info.bpp
        pre_brightness_buffer := none
        post_brightness_buffer := buf
        offset := offset
        dotstar_mode := info.dotstar_mode
        pixel_step := effective_bpp
        byteorder_tuple := none
        brightness := 1
        auto_write := false }
      let s := if info.dotstar_mode = true then
          { s with
              byteorder_tuple := some [info.byteorder.getD 0 0 + 1,
                info.byteorder.getD 1 0 + 1, info.byteorder.getD 2 0 + 1, 0],
              post_brightness_buffer :=
                dotstar_init_loop s.post_brightness_buffer offset bytes }
        else s
      let s := set_brightness s brightness
      .ok { s with auto_write := auto_write }

/-- `NeoPixel.__init__` exactly as the source stands: after the pixel-order
resolution and byte-order parsing (lines 26–34), line 43 evaluates the bare
name `header`, which is not a parameter and is defined nowhere in the module,
so every construction raises `NameError` at that point. -/
def NeoPixel_init_src (n : Nat) (bpp : Nat) (brightness : ℚ)
    (auto_write : Bool) (pixel_order : Option String) : Except PyError NeoPixel :=
  let byteorder := resolve_pixel_order bpp pixel_order
  match parse_byteorder byteorder with
  | .error e => .error e
  | .ok _ => .error (.nameError "header")

/-- `colorwheel` (lines 348–365). -/
def colorwheel (pos : Int) : Int × Int × Int :=
  if pos < 0 ∨ 255 < pos then (0, 0, 0)
  else if pos < 85 then (255 - pos * 3, pos * 3, 0)
  else if pos < 170 then
    let pos := pos - 85
    (0, 255 - pos * 3, pos * 3)
  else
    let pos := pos - 170
    (pos * 3, 0, 255 - pos * 3)

/-- Geometric well-formedness facts holding for every state built by
construction from a valid channel-order string (one with `R`, `G`, `B` exactly
once and at most one of `W`, `P`). -/
structure WF (s : NeoPixel) : Prop where
  bpp_eq : s.bpp = if s.has_white = true ∨ s.dotstar_mode = true then 4 else 3
  not_both : ¬(s.has_white = true ∧ s.dotstar_mode = true)
  byteorder_len : s.byteorder.length = s.bpp
  byteorder_lt : ∀ x ∈ s.byteorder, x < s.bpp
  byteorder_nodup : s.byteorder.Nodup
  step_eq : s.pixel_step = if s.dotstar_mode = true then 4 else s.bpp
  bytes_eq : s.bytes = s.pixel_step * s.pixels
  post_len : s.offset + s.bytes ≤ s.post_brightness_buffer.length
  pre_len : ∀ p, s.pre_brightness_buffer = some p →
    p.length = s.post_brightness_buffer.length

/-! ## Helper lemmas -/

/-- `int()` of a byte value is the byte itself. -/
theorem pyInt_natCast (n : Nat) : pyInt (n : ℚ) = n := by
  simp [pyInt, Rat.floor_def']

/-- `int()` of a byte value times brightness `1` is the byte itself. -/
theorem pyInt_mul_one (n : Nat) : pyInt ((n : ℚ) * 1) = n := by
  rw [mul_one, pyInt_natCast]

theorem byteAt_set_self (l : List Nat) (i v : Nat) (h : i < l.length) :
    byteAt (l.set i v) i = v := by
  simp [byteAt, List.getD_eq_getElem?_getD, List.getElem?_set_self', h]

theorem byteAt_set_ne (l : List Nat) {i j : Nat} (v : Nat) (h : i ≠ j) :
    byteAt (l.set i v) j = byteAt l j := by
  simp [byteAt, List.getD_eq_getElem?_getD, List.getElem?_set_ne h]

theorem brightness_loop_length (pre : List Nat) (ds : Bool) (chk : Nat) (b : ℚ) :
    ∀ (len start : Nat) (post : List Nat),
      (brightness_loop pre ds chk b post start len).length = post.length := by
  intro len
  induction len with
  | zero => intro start post; simp [brightness_loop]
  | succ n ih =>
      intro start post
      rw [brightness_loop, List.range'_succ, List.foldl_cons]
      have := ih (start + 1)
        (if ds = true ∧ start % 4 ≠ chk then post
         else post.set start (pyInt ((byteAt pre start : ℚ) * b)))
      rw [brightness_loop] at this
      rw [this]
      by_cases h : ds = true ∧ start % 4 ≠ chk <;> simp [h]

/-- Pointwise characterization of the brightness-adjustment loop. -/
theorem brightness_loop_byteAt (pre : List Nat) (ds : Bool) (chk : Nat) (b : ℚ) :
    ∀ (len start : Nat) (post : List Nat), start + len ≤ post.length → ∀ j,
      byteAt (brightness_loop pre ds chk b post start len) j =
        if start ≤ j ∧ j < start + len ∧ ¬(ds = true ∧ j % 4 ≠ chk) then
          pyInt ((byteAt pre j : ℚ) * b)
        else byteAt post j := by
  intro len
  induction len with
  | zero =>
      intro start post _ j
      rw [brightness_loop, show List.range' start 0 = [] from rfl, List.foldl_nil]
      exact (if_neg (fun h => absurd ⟨h.1, h.2.1⟩
        (by omega : ¬(start ≤ j ∧ j < start + 0)))).symm
  | succ n ih =>
      intro start post hlen j
      rw [brightness_loop, List.range'_succ, List.foldl_cons]
      set post1 := if ds = true ∧ start % 4 ≠ chk then post
        else post.set start (pyInt ((byteAt pre start : ℚ) * b)) with hpost1
      have hlen1 : post1.length = post.length := by
        by_cases h : ds = true ∧ start % 4 ≠ chk <;> simp [hpost1, h]
      have step : (List.range' (start + 1) n).foldl
          (fun acc i => if ds = true ∧ i % 4 ≠ chk then acc
            else acc.set i (pyInt ((byteAt pre i : ℚ) * b))) post1 =
          brightness_loop pre ds chk b post1 (start + 1) n := by
        rw [brightness_loop]
      rw [step, ih (start + 1) post1 (by omega) j]
      by_cases hK : ds = true ∧ j % 4 ≠ chk
      · have h1 : ¬(start + 1 ≤ j ∧ j < start + 1 + n
            ∧ ¬(ds = true ∧ j % 4 ≠ chk)) := fun h => h.2.2 hK
        have h2 : ¬(start ≤ j ∧ j < start + (n + 1)
            ∧ ¬(ds = true ∧ j % 4 ≠ chk)) := fun h => h.2.2 hK
        rw [if_neg h1, if_neg h2, hpost1]
        by_cases hsk : ds = true ∧ start % 4 ≠ chk
        · rw [if_pos hsk]
        · rw [if_neg hsk]
          have hj : start ≠ j := fun e => hsk ⟨hK.1, e ▸ hK.2⟩
          exact byteAt_set_ne post _ hj
      · by_cases hj : j = start
        · have h1 : ¬(start + 1 ≤ j ∧ j < start + 1 + n
              ∧ ¬(ds = true ∧ j % 4 ≠ chk)) :=
            fun h => absurd h.1 (by omega)
          have h2 : start ≤ j ∧ j < start + (n + 1)
              ∧ ¬(ds = true ∧ j % 4 ≠ chk) := ⟨by omega, by omega, hK⟩
          rw [if_neg h1, if_pos h2, hpost1]
          have hsk : ¬(ds = true ∧ start % 4 ≠ chk) :=
            fun hs => hK ⟨hs.1, by rw [hj]; exact hs.2⟩
          rw [if_neg hsk, hj]
          exact byteAt_set_self post start _ (by omega)
        · by_cases h2 : start ≤ j ∧ j < start + (n + 1)
              ∧ ¬(ds = true ∧ j % 4 ≠ chk)
          · have h1 : start + 1 ≤ j ∧ j < start + 1 + n
                ∧ ¬(ds = true ∧ j % 4 ≠ chk) := ⟨by omega, by omega, h2.2.2⟩
            rw [if_pos h1, if_pos h2]
          · have h1 : ¬(start + 1 ≤ j ∧ j < start + 1 + n
                ∧ ¬(ds = true ∧ j % 4 ≠ chk)) :=
              fun h => h2 ⟨by omega, by omega, h.2.2⟩
            rw [if_neg h1, if_neg h2, hpost1]
            by_cases hsk : ds = true ∧ start % 4 ≠ chk
            · rw [if_pos hsk]
            · rw [if_neg hsk]
              exact byteAt_set_ne post _ (Ne.symm hj)

/-- Python `s.strip(chars)` is empty exactly when every character of `s` is
drawn from `chars`. -/
theorem py_strip_eq_nil_iff (l chars : List Char) :
    py_strip l chars = [] ↔ ∀ c ∈ l, c ∈ chars := by
  unfold py_strip
  rw [List.reverse_eq_nil_iff, List.dropWhile_eq_nil_iff]
  constructor
  · intro h c hc
    by_cases hmem : c ∈ l.dropWhile (fun c => decide (c ∈ chars))
    · have := h c (List.mem_reverse.mpr hmem)
      simpa using this
    · have hsplit := List.takeWhile_append_dropWhile
        (p := fun c => decide (c ∈ chars)) (l := l)
      have hct : c ∈ l.takeWhile (fun c => decide (c ∈ chars)) := by
        rw [← hsplit] at hc
        rcases List.mem_append.mp hc with h1 | h2
        · exact h1
        · exact absurd h2 hmem
      simpa using List.mem_takeWhile_imp hct
  · intro h c hc
    rw [List.mem_reverse] at hc
    have : c ∈ l := (List.dropWhile_sublist _).subset hc
    simpa using h c this

/-- Distinct characters in a list have distinct indices. -/
theorem indexOf_ne_of_ne {l : List Char} {a b : Char} (ha : a ∈ l) (hb : b ∈ l)
    (hab : a ≠ b) : l.indexOf a ≠ l.indexOf b :=
  fun h => hab ((List.indexOf_inj ha hb).mp h)

/-- A list with no duplicates whose members are exactly those of `["R","G","B"]`
plus a fourth distinct character has length 4 (applied with `'W'` or `'P'`). -/
theorem length_eq_four_of_mem_iff {l : List Char} (hnd : l.Nodup) (x : Char)
    (hx : x ∈ (['R', 'G', 'B', 'W', 'P'] : List Char)) (hxr : x ≠ 'R')
    (hxg : x ≠ 'G') (hxb : x ≠ 'B')
    (hmem : ∀ c, c ∈ l ↔ c ∈ (['R', 'G', 'B', x] : List Char)) :
    l.length = 4 := by
  have hcard : l.toFinset.card = l.length := List.toFinset_card_of_nodup hnd
  have hset : l.toFinset = insert 'R' (insert 'G' (insert 'B' ({x} : Finset Char))) := by
    apply Finset.ext
    intro c
    rw [List.mem_toFinset, hmem c]
    simp [or_assoc]
  rw [hset] at hcard
  rw [← hcard]
  have c1 : ('R' : Char) ∉ insert 'G' (insert 'B' ({x} : Finset Char)) := by
    simp only [Finset.mem_insert, Finset.mem_singleton]
    push_neg
    exact ⟨by decide, by decide, fun h => hxr h.symm⟩
  have c2 : ('G' : Char) ∉ insert 'B' ({x} : Finset Char) := by
    simp only [Finset.mem_insert, Finset.mem_singleton]
    push_neg
    exact ⟨by decide, fun h => hxg h.symm⟩
  have c3 : ('B' : Char) ∉ ({x} : Finset Char) := by
    simp only [Finset.mem_singleton]
    exact fun h => hxb h.symm
  rw [Finset.card_insert_of_not_mem c1, Finset.card_insert_of_not_mem c2,
    Finset.card_insert_of_not_mem c3, Finset.card_singleton]

/-- A list with no duplicates whose members are exactly `R`, `G`, `B` has
length 3. -/
theorem length_eq_three_of_mem_iff {l : List Char} (hnd : l.Nodup)
    (hmem : ∀ c, c ∈ l ↔ c ∈ (['R', 'G', 'B'] : List Char)) :
    l.length = 3 := by
  have hcard : l.toFinset.card = l.length := List.toFinset_card_of_nodup hnd
  have hset : l.toFinset = insert 'R' (insert 'G' ({'B'} : Finset Char)) := by
    apply Finset.ext
    intro c
    rw [List.mem_toFinset, hmem c]
    simp [or_assoc]
  rw [hset] at hcard
  rw [← hcard]
  decide

/-- The three `R`/`G`/`B` offsets plus the offset of a distinct fourth channel form
four distinct in-range indices. -/
theorem byteorder_facts_four {l : List Char} (hr : 'R' ∈ l) (hg : 'G' ∈ l)
    (hb : 'B' ∈ l) {x : Char} (hx : x ∈ l) (hxr : x ≠ 'R') (hxg : x ≠ 'G')
    (hxb : x ≠ 'B') :
    [l.indexOf 'R', l.indexOf 'G', l.indexOf 'B', l.indexOf x].Nodup
    ∧ ∀ y ∈ [l.indexOf 'R', l.indexOf 'G', l.indexOf 'B', l.indexOf x],
        y < l.length := by
  refine ⟨?_, ?_⟩
  · have d12 := indexOf_ne_of_ne hr hg (by decide)
    have d13 := indexOf_ne_of_ne hr hb (by decide)
    have d14 := indexOf_ne_of_ne hr hx (fun h => hxr h.symm)
    have d23 := indexOf_ne_of_ne hg hb (by decide)
    have d24 := indexOf_ne_of_ne hg hx (fun h => hxg h.symm)
    have d34 := indexOf_ne_of_ne hb hx (fun h => hxb h.symm)
    simp only [List.nodup_cons, List.mem_cons, List.mem_singleton,
      List.not_mem_nil, or_false, not_or, List.nodup_nil, and_true]
    exact ⟨⟨d12, d13, d14⟩, ⟨d23, d24⟩, d34, not_false⟩
  · intro y hy
    simp only [List.mem_cons, List.mem_singleton, List.not_mem_nil,
      or_false] at hy
    rcases hy with rfl | rfl | rfl | rfl
    · exact List.indexOf_lt_length.mpr hr
    · exact List.indexOf_lt_length.mpr hg
    · exact List.indexOf_lt_length.mpr hb
    · exact List.indexOf_lt_length.mpr hx

/-- The three `R`/`G`/`B` offsets form three distinct in-range indices. -/
theorem byteorder_facts_three {l : List Char} (hr : 'R' ∈ l) (hg : 'G' ∈ l)
    (hb : 'B' ∈ l) :
    [l.indexOf 'R', l.indexOf 'G', l.indexOf 'B'].Nodup
    ∧ ∀ y ∈ [l.indexOf 'R', l.indexOf 'G', l.indexOf 'B'], y < l.length := by
  refine ⟨?_, ?_⟩
  · have d12 := indexOf_ne_of_ne hr hg (by decide)
    have d13 := indexOf_ne_of_ne hr hb (by decide)
    have d23 := indexOf_ne_of_ne hg hb (by decide)
    simp only [List.nodup_cons, List.mem_cons, List.mem_singleton,
      List.not_mem_nil, or_false, not_or, List.nodup_nil, and_true]
    exact ⟨⟨d12, d13⟩, d23, not_false⟩
  · intro y hy
    simp only [List.mem_cons, List.mem_singleton, List.not_mem_nil,
      or_false] at hy
    rcases hy with rfl | rfl | rfl
    · exact List.indexOf_lt_length.mpr hr
    · exact List.indexOf_lt_length.mpr hg
    · exact List.indexOf_lt_length.mpr hb

/-- Claim C4 (corrected): `_parse_byteorder` raises exactly when the order
string has a character outside `RGBWP` or lacks `R`, `G`, or `B`; every
accepted result has at most one of `has_white`/`dotstar_mode` set; and — under
the additional hypotheses the counterexample forces, namely that the order
string has no repeated character and does not contain both `W` and `P` —
`bytes_per_pixel = 3 + (1 if has_white or dotstar_mode else 0)` and the channel
offsets are a permutation of `{0,...,bpp-1}` (distinct, in range, `bpp` many). -/
theorem C4_parse_byteorder_amended (order : String) :
    ((∃ e, parse_byteorder order = .error e) ↔
      ¬((∀ c ∈ order.toList, c ∈ rgbwp) ∧ 'R' ∈ order.toList
        ∧ 'G' ∈ order.toList ∧ 'B' ∈ order.toList))
    ∧ ∀ info, parse_byteorder order = .ok info →
        ¬(info.has_white = true ∧ info.dotstar_mode = true)
        ∧ (order.toList.Nodup → ¬('W' ∈ order.toList ∧ 'P' ∈ order.toList) →
            info.bpp = 3 + (if info.has_white = true ∨ info.dotstar_mode = true
              then 1 else 0)
            ∧ info.byteorder.length = info.bpp
            ∧ info.byteorder.Nodup
            ∧ ∀ x ∈ info.byteorder, x < info.bpp) := by
  obtain ⟨l⟩ := order
  simp only [String.toList]
  by_cases hall : ∀ c ∈ l, c ∈ rgbwp
  · have hstrip : py_strip l rgbwp = [] :=
      (py_strip_eq_nil_iff _ _).mpr hall
    by_cases hr : 'R' ∈ l
    · by_cases hg : 'G' ∈ l
      · by_cases hb : 'B' ∈ l
        · -- accepted
          by_cases hW : 'W' ∈ l
          · have hres : parse_byteorder (String.mk l) = .ok ⟨l.length,
                [l.indexOf 'R', l.indexOf 'G',
                 l.indexOf 'B', l.indexOf 'W'],
                true, false⟩ := by
              simp [parse_byteorder, String.toList, hstrip, hr, hg, hb, hW]
            refine ⟨?_, ?_⟩
            · rw [hres]
              simp [hr, hg, hb]
              exact hall
            · intro info hinfo
              rw [hres] at hinfo
              injection hinfo with hinfo
              subst hinfo
              refine ⟨by simp, ?_⟩
              intro hnd hnWP
              have hP : 'P' ∉ l := fun hp => hnWP ⟨hW, hp⟩
              have hmem : ∀ c, c ∈ l ↔
                  c ∈ (['R', 'G', 'B', 'W'] : List Char) := by
                intro c
                constructor
                · intro hc
                  have h5 := hall c hc
                  simp only [rgbwp, List.mem_cons, List.mem_singleton,
                    List.not_mem_nil, or_false] at h5
                  rcases h5 with rfl | rfl | rfl | rfl | rfl
                  · simp
                  · simp
                  · simp
                  · simp
                  · exact absurd hc hP
                · intro hc
                  simp only [List.mem_cons, List.mem_singleton,
                    List.not_mem_nil, or_false] at hc
                  rcases hc with rfl | rfl | rfl | rfl
                  · exact hr
                  · exact hg
                  · exact hb
                  · exact hW
              have hlen : l.length = 4 :=
                length_eq_four_of_mem_iff hnd 'W' (by decide) (by decide)
                  (by decide) (by decide) hmem
              have hfacts := byteorder_facts_four hr hg hb hW
                (by decide) (by decide) (by decide)
              exact ⟨by simp [hlen], by simp [hlen], hfacts.1,
                fun x hx => hlen ▸ hfacts.2 x hx⟩
          · by_cases hP : 'P' ∈ l
            · have hres : parse_byteorder (String.mk l) = .ok ⟨l.length,
                  [l.indexOf 'R', l.indexOf 'G',
                   l.indexOf 'B', l.indexOf 'P'],
                  false, true⟩ := by
                simp [parse_byteorder, String.toList, hstrip, hr, hg, hb, hW, hP]
              refine ⟨?_, ?_⟩
              · rw [hres]
                simp [hr, hg, hb]
                exact hall
              · intro info hinfo
                rw [hres] at hinfo
                injection hinfo with hinfo
                subst hinfo
                refine ⟨by simp, ?_⟩
                intro hnd _
                have hmem : ∀ c, c ∈ l ↔
                    c ∈ (['R', 'G', 'B', 'P'] : List Char) := by
                  intro c
                  constructor
                  · intro hc
                    have h5 := hall c hc
                    simp only [rgbwp, List.mem_cons, List.mem_singleton,
                      List.not_mem_nil, or_false] at h5
                    rcases h5 with rfl | rfl | rfl | rfl | rfl
                    · simp
                    · simp
                    · simp
                    · exact absurd hc hW
                    · simp
                  · intro hc
                    simp only [List.mem_cons, List.mem_singleton,
                      List.not_mem_nil, or_false] at hc
                    rcases hc with rfl | rfl | rfl | rfl
                    · exact hr
                    · exact hg
                    · exact hb
                    · exact hP
                have hlen : l.length = 4 :=
                  length_eq_four_of_mem_iff hnd 'P' (by decide) (by decide)
                    (by decide) (by decide) hmem
                have hfacts := byteorder_facts_four hr hg hb hP
                  (by decide) (by decide) (by decide)
                exact ⟨by simp [hlen], by simp [hlen], hfacts.1,
                  fun x hx => hlen ▸ hfacts.2 x hx⟩
            · have hres : parse_byteorder (String.mk l) = .ok ⟨l.length,
                  [l.indexOf 'R', l.indexOf 'G',
                   l.indexOf 'B'], false, false⟩ := by
                simp [parse_byteorder, String.toList, hstrip, hr, hg, hb, hW, hP]
              refine ⟨?_, ?_⟩
              · rw [hres]
                simp [hr, hg, hb]
                exact hall
              · intro info hinfo
                rw [hres] at hinfo
                injection hinfo with hinfo
                subst hinfo
                refine ⟨by simp, ?_⟩
                intro hnd _
                have hmem : ∀ c, c ∈ l ↔
                    c ∈ (['R', 'G', 'B'] : List Char) := by
                  intro c
                  constructor
                  · intro hc
                    have h5 := hall c hc
                    simp only [rgbwp, List.mem_cons, List.mem_singleton,
                      List.not_mem_nil, or_false] at h5
                    rcases h5 with rfl | rfl | rfl | rfl | rfl
                    · simp
                    · simp
                    · simp
                    · exact absurd hc hW
                    · exact absurd hc hP
                  · intro hc
                    simp only [List.mem_cons, List.mem_singleton,
                      List.not_mem_nil, or_false] at hc
                    rcases hc with rfl | rfl | rfl
                    · exact hr
                    · exact hg
                    · exact hb
                have hlen : l.length = 3 :=
                  length_eq_three_of_mem_iff hnd hmem
                have hfacts := byteorder_facts_three hr hg hb
                exact ⟨by simp [hlen], by simp [hlen], hfacts.1,
                  fun x hx => hlen ▸ hfacts.2 x hx⟩
        · have hres : parse_byteorder (String.mk l) =
              .error (.valueError "Invalid Byteorder string") := by
            simp [parse_byteorder, String.toList, hstrip, hr, hg, hb]
          refine ⟨?_, ?_⟩
          · rw [hres]
            simp [hb]
          · intro info hinfo
            rw [hres] at hinfo
            exact absurd hinfo (by simp)
      · have hres : parse_byteorder (String.mk l) =
            .error (.valueError "Invalid Byteorder string") := by
          simp [parse_byteorder, String.toList, hstrip, hr, hg]
        refine ⟨?_, ?_⟩
        · rw [hres]
          simp [hg]
        · intro info hinfo
          rw [hres] at hinfo
          exact absurd hinfo (by simp)
    · have hres : parse_byteorder (String.mk l) =
          .error (.valueError "Invalid Byteorder string") := by
        simp [parse_byteorder, String.toList, hstrip, hr]
      refine ⟨?_, ?_⟩
      · rw [hres]
        simp [hr]
      · intro info hinfo
        rw [hres] at hinfo
        exact absurd hinfo (by simp)
  · have hstrip : py_strip l rgbwp ≠ [] :=
      fun h => hall ((py_strip_eq_nil_iff _ _).mp h)
    have hres : parse_byteorder (String.mk l) =
        .error (.valueError "Invalid Byteorder string") := by
      simp [parse_byteorder, String.toList, hstrip]
    refine ⟨?_, ?_⟩
    · rw [hres]
      simp [hall]
    · intro info hinfo
      rw [hres] at hinfo
      exact absurd hinfo (by simp)

/-- Claim C4 counterexample: `_parse_byteorder` accepts order strings with
repeated characters ("RGBB") and with both `W` and `P` ("RGBWP"), and on them
the claimed invariant `bytes_per_pixel = 3 + (1 if has_white or dotstar_mode
else 0)` fails (`4 ≠ 3` resp. `5 ≠ 4`). -/
theorem C4_counterexample :
    parse_byteorder "RGBB" = .ok ⟨4, [0, 1, 2], false, false⟩
    ∧ (4 : Nat) ≠ 3 + (if false = true ∨ false = true then 1 else 0)
    ∧ parse_byteorder "RGBWP" = .ok ⟨5, [0, 1, 2, 3], true, false⟩
    ∧ (5 : Nat) ≠ 3 + (if true = true ∨ false = true then 1 else 0) := by
  refine ⟨by decide, by decide, by decide, by decide⟩

/-- Witness for C4: the amended theorem applied to the valid order "RGBW". -/
theorem C4_witness :
    (4 : Nat) = 3 + (if true = true ∨ false = true then 1 else 0)
    ∧ ([0, 1, 2, 3] : List Nat).length = 4 :=
  have h := ((C4_parse_byteorder_amended "RGBW").2 ⟨4, [0, 1, 2, 3], true, false⟩
    (by decide)).2 (by decide) (by decide)
  ⟨h.1, h.2.1⟩

/-- Claim C1 (code_bug): for every construction input whose channel-order
string parses, `__init__` as written raises `NameError` when line 43 evaluates
the undefined name `header`, instead of completing and allocating the buffer. -/
theorem C1_construction_raises_nameerror (n bpp : Nat) (brightness : ℚ)
    (auto_write : Bool) (pixel_order : Option String) (info : ByteorderInfo)
    (h : parse_byteorder (resolve_pixel_order bpp pixel_order) = .ok info) :
    NeoPixel_init_src n bpp brightness auto_write pixel_order
      = .error (.nameError "header") := by
  simp [NeoPixel_init_src, h]

/-- Witness for C1 at the default 3-channel construction. -/
theorem C1_witness :
    NeoPixel_init_src 1 3 1 false none = .error (.nameError "header") :=
  C1_construction_raises_nameerror 1 3 1 false none ⟨3, [1, 0, 2], false, false⟩
    (by decide)

/-- Claim C2 (code_bug evaluation): with dotstar order "RGBP", one pixel set to
(10,20,30) and a brightness change to 0.5, the rescale loop adjusts only the
byte at slot position `offset % 4` (here the R byte) and leaves G and B
unscaled — the buffer becomes `[5, 20, 30, 255]`, not the `[5, 10, 15, 255]`
that "skip only the Fourth byte, rescale all others" would give. -/
theorem C2_dotstar_brightness_eval :
    ((NeoPixel_init 1 4 1 false (some "RGBP") none none).bind
      (fun s => setitem s 0 (.seq [10, 20, 30]))).map
      (fun s => (set_brightness s (1/2)).post_brightness_buffer)
      = .ok [5, 20, 30, 255]
    ∧ ([5, 20, 30, 255] : List Nat) ≠ [5, 10, 15, 255] := by
  refine ⟨by decide, by decide⟩

/-- Claim C3 (code_bug evaluation): constructing a dotstar buffer with order
"RGBP" writes the full-bright start sentinel at slot byte 0, not at the `P`
channel offset (`byteorder[3] = 3`): the post buffer is `[255, 0, 0, 0]` and
the Fourth byte is `0`, whose top three bits are not set. -/
theorem C3_dotstar_construction_eval :
    (NeoPixel_init 1 4 1 false (some "RGBP") none none).map
      (fun s => (s.post_brightness_buffer,
        byteAt s.post_brightness_buffer (s.byteorder.getD 3 0)))
      = .ok ([255, 0, 0, 0], 0)
    ∧ (0 : Nat) ≠ DOTSTAR_LED_START_FULL_BRIGHT := by
  refine ⟨by decide, by decide⟩

/-- Claim C5 (corrected): decoding a packed integer gives `r = value >> 16`
with no mask (equal to bits 16–23 only when `value < 2^24`),
`g = (value >> 8) & 0xFF`, `b = value & 0xFF`; `w = 0` on a plain 3-channel
spec, and `w = 255` (the ready-made full-brightness frame byte) on a 4-byte
dotstar spec.  On a white spec, whenever the three decoded components are
equal, white inference rewrites the result to `(0,0,0,r)`; otherwise the
components pass through with `w = 0`. -/
theorem C5_packed_int_amended (s : NeoPixel) (v : Nat) :
    (s.dotstar_mode = false → s.has_white = false → s.bpp = 3 →
      parse_color s (.int v)
        = .ok (v >>> 16, (v >>> 8) &&& 0xFF, v &&& 0xFF, 0))
    ∧ (s.dotstar_mode = true → s.bpp = 4 →
      parse_color s (.int v)
        = .ok (v >>> 16, (v >>> 8) &&& 0xFF, v &&& 0xFF, (255 : ℚ)))
    ∧ (s.dotstar_mode = false → s.has_white = true → s.bpp = 4 →
      parse_color s (.int v)
        = if (v >>> 16) = ((v >>> 8) &&& 0xFF)
            ∧ ((v >>> 8) &&& 0xFF) = (v &&& 0xFF) then
            .ok (0, 0, 0, ((v >>> 16 : Nat) : ℚ))
          else
            .ok (v >>> 16, (v >>> 8) &&& 0xFF, v &&& 0xFF, 0)) := by
  refine ⟨?_, ?_, ?_⟩
  · intro hds hw h3
    simp [parse_color, hds, hw, h3]
  · intro hds h4
    simp only [parse_color, hds, h4, if_pos, if_true]
    norm_num [pyInt, Rat.floor_def', DOTSTAR_LED_BRIGHTNESS, DOTSTAR_LED_START]
    norm_cast
  · intro hds hw h4
    by_cases hc : (v >>> 16) = ((v >>> 8) &&& 0xFF)
        ∧ ((v >>> 8) &&& 0xFF) = (v &&& 0xFF)
    · rw [if_pos hc]
      simp [parse_color, hds, hw, h4, hc.1, hc.2]
    · rw [if_neg hc]
      simp [parse_color, hds, hw, h4, hc]

/-- Claim C5 counterexample: at `value = 2^24` the decoded `r` is 256, while
bits 16–23 of the value are 0; and on a white spec the gray packed integer
`0x0A0A0A` decodes to `(0,0,0,10)`, not `(10,10,10,0)` with `w = 0`. -/
theorem C5_counterexample :
    ((NeoPixel_init 1 3 1 false none none none).bind
      (fun s => parse_color s (.int 16777216))) = .ok (256, 0, 0, 0)
    ∧ (256 : Nat) ≠ (16777216 >>> 16) &&& 0xFF
    ∧ ((NeoPixel_init 1 4 1 false none none none).bind
      (fun s => parse_color s (.int 657930))) = .ok (0, 0, 0, (10 : ℚ)) := by
  refine ⟨by decide, by decide, by decide⟩

/-- A concrete 1-pixel `GRB` state (as produced by construction), used to
instantiate the general theorems. -/
def stateGRB : NeoPixel :=
  ⟨1, 3, [1, 0, 2], "GRB", false, 3, none, [0, 0, 0], 0, false, 3, none, 1, false⟩

/-- Witness for C5 on a concrete 3-channel state at `value = 0x123456`. -/
theorem C5_witness :
    parse_color stateGRB (.int 1193046) = .ok (18, 52, 86, 0) :=
  (C5_packed_int_amended stateGRB 1193046).1 rfl rfl rfl

/-- Claim C9 (confirmed): `colorwheel` values at the band edges, the
out-of-range guard, and the linear interpolants within each 85-wide band. -/
theorem C9_colorwheel :
    colorwheel 0 = (255, 0, 0) ∧ colorwheel 85 = (0, 255, 0)
    ∧ colorwheel 170 = (0, 0, 255)
    ∧ (∀ pos : Int, pos < 0 ∨ 255 < pos → colorwheel pos = (0, 0, 0))
    ∧ (∀ pos : Int, 0 ≤ pos → pos < 85 →
        colorwheel pos = (255 - pos * 3, pos * 3, 0))
    ∧ (∀ pos : Int, 85 ≤ pos → pos < 170 →
        colorwheel pos = (0, 255 - (pos - 85) * 3, (pos - 85) * 3))
    ∧ (∀ pos : Int, 170 ≤ pos → pos ≤ 255 →
        colorwheel pos = ((pos - 170) * 3, 0, 255 - (pos - 170) * 3)) := by
  refine ⟨by decide, by decide, by decide, ?_, ?_, ?_, ?_⟩
  · intro pos h
    unfold colorwheel
    rw [if_pos h]
  · intro pos h0 h85
    unfold colorwheel
    rw [if_neg (by omega), if_pos h85]
  · intro pos h85 h170
    unfold colorwheel
    rw [if_neg (by omega), if_neg (by omega), if_pos h170]
  · intro pos h170 h255
    unfold colorwheel
    rw [if_neg (by omega), if_neg (by omega), if_neg (by omega)]

/-- Witness for C9: in particular `colorwheel(256) = (0,0,0)`. -/
theorem C9_witness : colorwheel 256 = (0, 0, 0) :=
  C9_colorwheel.2.2.2.1 256 (Or.inr (by decide))

theorem getD_mem (l : List Nat) (k : Nat) (h : k < l.length) :
    l.getD k 0 ∈ l := by
  rw [List.getD_eq_getElem?_getD, List.getElem?_eq_getElem h]
  exact List.getElem_mem h

theorem getD_ne_of_nodup {l : List Nat} (hnd : l.Nodup) {a b : Nat}
    (ha : a < l.length) (hb : b < l.length) (hab : a ≠ b) :
    l.getD a 0 ≠ l.getD b 0 := by
  rw [List.getD_eq_getElem?_getD, List.getD_eq_getElem?_getD,
    List.getElem?_eq_getElem ha, List.getElem?_eq_getElem hb]
  intro h
  exact hab (hnd.getElem_inj_iff.mp (by simpa using h))

/-- The byte offset of channel `bo` of pixel `i` lies inside the pixel region. -/
theorem pixel_byte_lt {i n bpp bo : Nat} (hi : i < n) (hbo : bo < bpp) :
    i * bpp + bo < bpp * n := by
  have h1 : i * bpp + bo < (i + 1) * bpp := by
    have : (i + 1) * bpp = i * bpp + bpp := by ring
    omega
  have h2 : (i + 1) * bpp ≤ n * bpp := Nat.mul_le_mul_right _ hi
  have h3 : n * bpp = bpp * n := Nat.mul_comm n bpp
  omega

/-- `_set_item` at a valid nonnegative index: the explicit state it produces. -/
theorem set_item_eq (s : NeoPixel) (i : Nat) (hi : i < s.pixels)
    (r g b : Nat) (w : ℚ) :
    set_item s (i : Int) r g b w = .ok { s with
      pre_brightness_buffer :=
        match s.pre_brightness_buffer with
        | none => none
        | some p => some ((((if s.bpp = 4 then
              p.set (s.offset + i * s.bpp + s.byteorder.getD 3 0) (pyInt w)
            else p).set (s.offset + i * s.bpp + s.byteorder.getD 0 0) r).set
            (s.offset + i * s.bpp + s.byteorder.getD 1 0) g).set
            (s.offset + i * s.bpp + s.byteorder.getD 2 0) b),
      post_brightness_buffer :=
        (((if s.bpp = 4 then
            s.post_brightness_buffer.set
              (s.offset + i * s.bpp + s.byteorder.getD 3 0)
              (if s.dotstar_mode = true then pyInt w
               else pyInt (w * s.brightness))
          else s.post_brightness_buffer).set
          (s.offset + i * s.bpp + s.byteorder.getD 0 0)
          (pyInt ((r : ℚ) * s.brightness))).set
          (s.offset + i * s.bpp + s.byteorder.getD 1 0)
          (pyInt ((g : ℚ) * s.brightness))).set
          (s.offset + i * s.bpp + s.byteorder.getD 2 0)
          (pyInt ((b : ℚ) * s.brightness)) } := by
  have h0 : ¬((i : Int) < 0) := Int.not_lt.mpr (Int.natCast_nonneg i)
  have h2 : ¬((s.pixels : Int) ≤ (i : Int) ∨ (i : Int) < 0) := by
    push_neg
    exact ⟨by exact_mod_cast hi, Int.natCast_nonneg i⟩
  simp only [set_item, h0, if_false, Int.toNat_natCast]
  rw [if_neg (by simpa using h2)]

/-- `set_brightness` on a brightness-1 buffer with target 0.5 takes the real
change path. -/
theorem set_brightness_half (s : NeoPixel) (hb : s.brightness = 1) :
    set_brightness s (1/2) = { s with
      brightness := 1/2,
      pre_brightness_buffer :=
        some ((s.pre_brightness_buffer).getD s.post_brightness_buffer),
      post_brightness_buffer := brightness_loop
        ((s.pre_brightness_buffer).getD s.post_brightness_buffer)
        s.dotstar_mode (s.offset % s.pixel_step) (1/2)
        s.post_brightness_buffer s.offset s.bytes } := by
  simp only [set_brightness, hb]
  rw [show min (max ((1 : ℚ)/2) 0) 1 = 1/2 by norm_num]
  rw [if_neg (by norm_num)]

/-- `_parse_color` on a 3-sequence of distinct component values, for a
non-dotstar spec with 3 or 4 bytes per pixel: positional decoding, `w = 0`. -/
theorem parse_color_triple (s : NeoPixel) (hds : s.dotstar_mode = false)
    (hbpp : s.bpp = 3 ∨ s.bpp = 4) (a b c : Nat) (hne : ¬(a = b ∧ b = c)) :
    parse_color s (.seq [a, b, c]) = .ok (a, b, c, 0) := by
  rcases hbpp with h3 | h4
  · simp [parse_color, hds, h3]
  · simp [parse_color, hds, h4, hne]

/-- `int(0 * b)` is `0`. -/
theorem pyInt_zero : pyInt 0 = 0 := rfl

/-- Reading back a chain of three writes at distinct in-range positions. -/
theorem byteAt_chain3 (A : List Nat) (x0 x1 x2 : Nat) (v0 v1 v2 : Nat)
    (h01 : x0 ≠ x1) (h02 : x0 ≠ x2) (h12 : x1 ≠ x2)
    (hl0 : x0 < A.length) (hl1 : x1 < A.length) (hl2 : x2 < A.length) :
    byteAt (((A.set x0 v0).set x1 v1).set x2 v2) x0 = v0
    ∧ byteAt (((A.set x0 v0).set x1 v1).set x2 v2) x1 = v1
    ∧ byteAt (((A.set x0 v0).set x1 v1).set x2 v2) x2 = v2 := by
  refine ⟨?_, ?_, ?_⟩
  · rw [byteAt_set_ne _ _ (Ne.symm h02), byteAt_set_ne _ _ (Ne.symm h01)]
    exact byteAt_set_self A x0 v0 hl0
  · rw [byteAt_set_ne _ _ (Ne.symm h12)]
    exact byteAt_set_self _ x1 v1 (by simpa using hl1)
  · exact byteAt_set_self _ x2 v2 (by simpa using hl2)

/-- `__getitem__` at a valid nonnegative index reads via `_getitem`. -/
theorem getitem_pos (s2 : NeoPixel) (i : Nat) (hi : i < s2.pixels) :
    getitem s2 (i : Int) = .ok (getitem_core s2 i) := by
  have h0 : ¬((i : Int) < 0) := Int.not_lt.mpr (Int.natCast_nonneg i)
  have h2 : ¬((s2.pixels : Int) ≤ (i : Int) ∨ (i : Int) < 0) := by
    push_neg
    exact ⟨by exact_mod_cast hi, Int.natCast_nonneg i⟩
  simp only [getitem, h0, if_false, Int.toNat_natCast]
  rw [if_neg (by simpa using h2)]

/-- When the pre-brightness buffer is present and holds `(10,20,30)` at the
channel offsets of pixel `i`, `get_pixel(i)` starts with `(10,20,30)`. -/
theorem getitem_starts (s2 : NeoPixel) (P : List Nat)
    (hpre : s2.pre_brightness_buffer = some P) (i : Nat) (hi : i < s2.pixels)
    (hds2 : s2.dotstar_mode = false)
    (h0 : byteAt P (s2.offset + i * s2.bpp + s2.byteorder.getD 0 0) = 10)
    (h1 : byteAt P (s2.offset + i * s2.bpp + s2.byteorder.getD 1 0) = 20)
    (h2 : byteAt P (s2.offset + i * s2.bpp + s2.byteorder.getD 2 0) = 30) :
    ∃ rest, getitem s2 (i : Int) = .ok ((10 : ℚ) :: (20 : ℚ) :: (30 : ℚ) :: rest) := by
  rw [getitem_pos s2 i hi]
  simp only [List.getD_eq_getElem?_getD] at h0 h1 h2
  by_cases hw : s2.has_white = true
  · refine ⟨[((byteAt P (s2.offset + i * s2.bpp + s2.byteorder.getD 3 0) : Nat) : ℚ)], ?_⟩
    simp [getitem_core, hpre, hw, h0, h1, h2]
  · refine ⟨[], ?_⟩
    simp [getitem_core, hpre, hw, hds2, h0, h1, h2]

/-- Claim C6 counterexample: on the dotstar spec "RGBP" (a valid channel-order
spec) the round trip fails: after `set_pixel(0,(10,20,30))` and
`set_brightness(0.5)`, the post buffer byte at the G channel offset is still
20, not `floor(20*0.5) = 10` — only the byte at slot position 0 was rescaled. -/
theorem C6_counterexample :
    ((NeoPixel_init 1 4 1 false (some "RGBP") none none).bind
      (fun s => setitem s 0 (.seq [10, 20, 30]))).map
      (fun s =>
        let s2 := set_brightness s (1/2)
        (getitem s2 0, byteAt s2.post_brightness_buffer (s2.byteorder.getD 1 0)))
      = .ok (.ok [(10 : ℚ), 20, 30, 1], 20)
    ∧ (20 : Nat) ≠ pyInt ((20 : ℚ) * (1/2)) := by
  refine ⟨by decide, by decide⟩

/-- Claim C6 (corrected): for every well-formed NON-dotstar state at brightness
1.0 and valid index `i`, `set_pixel(i,(10,20,30))` followed by
`set_brightness(0.5)` yields `get_pixel(i)` starting with `(10,20,30)` (read
from the materialized pre-brightness buffer) and post-buffer bytes
`floor(10*0.5)`, `floor(20*0.5)`, `floor(30*0.5)` at the R, G, B channel
offsets of pixel `i`. -/
theorem C6_round_trip_amended (s : NeoPixel) (hwf : WF s)
    (hds : s.dotstar_mode = false) (hb1 : s.brightness = 1) (i : Nat)
    (hi : i < s.pixels) (s1 : NeoPixel)
    (h1 : setitem s (i : Int) (.seq [10, 20, 30]) = .ok s1) :
    (∃ rest, getitem (set_brightness s1 (1/2)) (i : Int)
        = .ok ((10 : ℚ) :: (20 : ℚ) :: (30 : ℚ) :: rest))
    ∧ byteAt (set_brightness s1 (1/2)).post_brightness_buffer
        (s.offset + i * s.bpp + s.byteorder.getD 0 0) = pyInt ((10 : ℚ) * (1/2))
    ∧ byteAt (set_brightness s1 (1/2)).post_brightness_buffer
        (s.offset + i * s.bpp + s.byteorder.getD 1 0) = pyInt ((20 : ℚ) * (1/2))
    ∧ byteAt (set_brightness s1 (1/2)).post_brightness_buffer
        (s.offset + i * s.bpp + s.byteorder.getD 2 0) = pyInt ((30 : ℚ) * (1/2)) := by
  -- basic spec facts
  have hbpp34 : s.bpp = 3 ∨ s.bpp = 4 := by
    rw [hwf.bpp_eq]
    by_cases h : s.has_white = true ∨ s.dotstar_mode = true <;> simp [h]
  have hlen3 : 3 ≤ s.byteorder.length := by
    rw [hwf.byteorder_len]; omega
  have hbo0 : s.byteorder.getD 0 0 < s.bpp :=
    hwf.byteorder_lt _ (getD_mem _ 0 (by omega))
  have hbo1 : s.byteorder.getD 1 0 < s.bpp :=
    hwf.byteorder_lt _ (getD_mem _ 1 (by omega))
  have hbo2 : s.byteorder.getD 2 0 < s.bpp :=
    hwf.byteorder_lt _ (getD_mem _ 2 (by omega))
  have hbytes : s.bytes = s.bpp * s.pixels := by
    rw [hwf.bytes_eq, hwf.step_eq, hds]
    simp
  have hx0 : i * s.bpp + s.byteorder.getD 0 0 < s.bpp * s.pixels :=
    pixel_byte_lt hi hbo0
  have hx1 : i * s.bpp + s.byteorder.getD 1 0 < s.bpp * s.pixels :=
    pixel_byte_lt hi hbo1
  have hx2 : i * s.bpp + s.byteorder.getD 2 0 < s.bpp * s.pixels :=
    pixel_byte_lt hi hbo2
  have hplen := hwf.post_len
  have hne01 : s.byteorder.getD 0 0 ≠ s.byteorder.getD 1 0 :=
    getD_ne_of_nodup hwf.byteorder_nodup (by omega) (by omega) (by decide)
  have hne02 : s.byteorder.getD 0 0 ≠ s.byteorder.getD 2 0 :=
    getD_ne_of_nodup hwf.byteorder_nodup (by omega) (by omega) (by decide)
  have hne12 : s.byteorder.getD 1 0 ≠ s.byteorder.getD 2 0 :=
    getD_ne_of_nodup hwf.byteorder_nodup (by omega) (by omega) (by decide)
  -- decode the color
  have hparse : parse_color s (.seq [10, 20, 30]) = .ok (10, 20, 30, 0) :=
    parse_color_triple s hds hbpp34 10 20 30 (by decide)
  -- compute the write
  have hseteq := set_item_eq s i hi 10 20 30 0
  rw [setitem] at h1
  rw [hparse] at h1
  simp only [hseteq, show'] at h1
  rw [ite_self] at h1
  rw [Except.ok.injEq] at h1
  subst h1
  -- normalize the written values (brightness is 1, non-dotstar)
  simp only [hds, hb1, mul_one, zero_mul, pyInt_natCast, pyInt_zero,
    Bool.false_eq_true, if_false, ite_self]
  rw [set_brightness_half _ rfl]
  have hX01 : s.offset + i * s.bpp + s.byteorder.getD 0 0
      ≠ s.offset + i * s.bpp + s.byteorder.getD 1 0 :=
    fun h => hne01 (Nat.add_left_cancel h)
  have hX02 : s.offset + i * s.bpp + s.byteorder.getD 0 0
      ≠ s.offset + i * s.bpp + s.byteorder.getD 2 0 :=
    fun h => hne02 (Nat.add_left_cancel h)
  have hX12 : s.offset + i * s.bpp + s.byteorder.getD 1 0
      ≠ s.offset + i * s.bpp + s.byteorder.getD 2 0 :=
    fun h => hne12 (Nat.add_left_cancel h)
  rcases hpv : s.pre_brightness_buffer with _ | p
  · simp only [hpv, Option.getD_none]
    set A := if s.bpp = 4 then
        s.post_brightness_buffer.set (s.offset + i * s.bpp + s.byteorder.getD 3 0) 0
      else s.post_brightness_buffer with hA
    set P := ((A.set (s.offset + i * s.bpp + s.byteorder.getD 0 0) 10).set
        (s.offset + i * s.bpp + s.byteorder.getD 1 0) 20).set
        (s.offset + i * s.bpp + s.byteorder.getD 2 0) 30 with hP
    have hAlen : A.length = s.post_brightness_buffer.length := by
      rw [hA]; by_cases h4 : s.bpp = 4 <;> simp [h4]
    have hl0 : s.offset + i * s.bpp + s.byteorder.getD 0 0 < A.length := by
      rw [hAlen]; omega
    have hl1 : s.offset + i * s.bpp + s.byteorder.getD 1 0 < A.length := by
      rw [hAlen]; omega
    have hl2 : s.offset + i * s.bpp + s.byteorder.getD 2 0 < A.length := by
      rw [hAlen]; omega
    have hchain := byteAt_chain3 A _ _ _ 10 20 30 hX01 hX02 hX12 hl0 hl1 hl2
    have hPlen : P.length = s.post_brightness_buffer.length := by
      rw [hP]; simp [hAlen]
    have hlooplen : s.offset + s.bytes ≤ P.length := by rw [hPlen]; exact hplen
    have hloopAt := brightness_loop_byteAt P false (s.offset % s.pixel_step)
      (1/2) s.bytes s.offset P hlooplen
    refine ⟨?_, ?_, ?_, ?_⟩
    · exact getitem_starts _ P rfl i hi rfl hchain.1 hchain.2.1 hchain.2.2
    · rw [hloopAt (s.offset + i * s.bpp + s.byteorder.getD 0 0),
        if_pos ⟨by omega, by omega, by simp⟩, hchain.1]
      norm_num
    · rw [hloopAt (s.offset + i * s.bpp + s.byteorder.getD 1 0),
        if_pos ⟨by omega, by omega, by simp⟩, hchain.2.1]
      norm_num
    · rw [hloopAt (s.offset + i * s.bpp + s.byteorder.getD 2 0),
        if_pos ⟨by omega, by omega, by simp⟩, hchain.2.2]
      norm_num
  · simp only [hpv, Option.getD_some]
    set B := if s.bpp = 4 then
        p.set (s.offset + i * s.bpp + s.byteorder.getD 3 0) 0
      else p with hB
    set A := if s.bpp = 4 then
        s.post_brightness_buffer.set (s.offset + i * s.bpp + s.byteorder.getD 3 0) 0
      else s.post_brightness_buffer with hA
    set P := ((B.set (s.offset + i * s.bpp + s.byteorder.getD 0 0) 10).set
        (s.offset + i * s.bpp + s.byteorder.getD 1 0) 20).set
        (s.offset + i * s.bpp + s.byteorder.getD 2 0) 30 with hP
    set Q := ((A.set (s.offset + i * s.bpp + s.byteorder.getD 0 0) 10).set
        (s.offset + i * s.bpp + s.byteorder.getD 1 0) 20).set
        (s.offset + i * s.bpp + s.byteorder.getD 2 0) 30 with hQ
    have hpl : p.length = s.post_brightness_buffer.length := hwf.pre_len p hpv
    have hBlen : B.length = s.post_brightness_buffer.length := by
      rw [hB]; by_cases h4 : s.bpp = 4 <;> simp [h4, hpl]
    have hAlen : A.length = s.post_brightness_buffer.length := by
      rw [hA]; by_cases h4 : s.bpp = 4 <;> simp [h4]
    have hl0 : s.offset + i * s.bpp + s.byteorder.getD 0 0 < B.length := by
      rw [hBlen]; omega
    have hl1 : s.offset + i * s.bpp + s.byteorder.getD 1 0 < B.length := by
      rw [hBlen]; omega
    have hl2 : s.offset + i * s.bpp + s.byteorder.getD 2 0 < B.length := by
      rw [hBlen]; omega
    have hchain := byteAt_chain3 B _ _ _ 10 20 30 hX01 hX02 hX12 hl0 hl1 hl2
    have hQlen : Q.length = s.post_brightness_buffer.length := by
      rw [hQ]; simp [hAlen]
    have hlooplen : s.offset + s.bytes ≤ Q.length := by rw [hQlen]; exact hplen
    have hloopAt := brightness_loop_byteAt P false (s.offset % s.pixel_step)
      (1/2) s.bytes s.offset Q hlooplen
    refine ⟨?_, ?_, ?_, ?_⟩
    · exact getitem_starts _ P rfl i hi rfl hchain.1 hchain.2.1 hchain.2.2
    · rw [hloopAt (s.offset + i * s.bpp + s.byteorder.getD 0 0),
        if_pos ⟨by omega, by omega, by simp⟩, hchain.1]
      norm_num
    · rw [hloopAt (s.offset + i * s.bpp + s.byteorder.getD 1 0),
        if_pos ⟨by omega, by omega, by simp⟩, hchain.2.1]
      norm_num
    · rw [hloopAt (s.offset + i * s.bpp + s.byteorder.getD 2 0),
        if_pos ⟨by omega, by omega, by simp⟩, hchain.2.2]
      norm_num

/-- Claim C7 (confirmed): on a white spec with the pre-brightness buffer
present, a bare 3-tuple of equal components is stored as pure white
(`r=g=b=0`, `w=5`), an explicit 4-tuple is stored verbatim (`w=0`), and
white inference fires exactly for inputs whose decoded components are all
equal and that are packed integers or 3-tuples — never for explicit
4-tuples. -/
theorem C7_white_inference (s : NeoPixel) (hwf : WF s) (hw : s.has_white = true)
    (p : List Nat) (hpv : s.pre_brightness_buffer = some p) (i : Nat)
    (hi : i < s.pixels) :
    (∀ a b c : Nat, ¬(a = b ∧ b = c) →
        parse_color s (.seq [a, b, c]) = .ok (a, b, c, 0))
    ∧ (∀ a : Nat, parse_color s (.seq [a, a, a]) = .ok (0, 0, 0, (a : ℚ)))
    ∧ (∀ a b c d : Nat, parse_color s (.seq [a, b, c, d]) = .ok (a, b, c, (d : ℚ)))
    ∧ (∀ v : Nat, parse_color s (.int v)
        = if (v >>> 16) = ((v >>> 8) &&& 0xFF)
            ∧ ((v >>> 8) &&& 0xFF) = (v &&& 0xFF) then
            .ok (0, 0, 0, ((v >>> 16 : Nat) : ℚ))
          else
            .ok (v >>> 16, (v >>> 8) &&& 0xFF, v &&& 0xFF, 0))
    ∧ (∀ s1, setitem s (i : Int) (.seq [5, 5, 5]) = .ok s1 →
        ∃ p1, s1.pre_brightness_buffer = some p1
          ∧ byteAt p1 (s.offset + i * s.bpp + s.byteorder.getD 0 0) = 0
          ∧ byteAt p1 (s.offset + i * s.bpp + s.byteorder.getD 1 0) = 0
          ∧ byteAt p1 (s.offset + i * s.bpp + s.byteorder.getD 2 0) = 0
          ∧ byteAt p1 (s.offset + i * s.bpp + s.byteorder.getD 3 0) = 5)
    ∧ (∀ s1, setitem s (i : Int) (.seq [5, 5, 5, 0]) = .ok s1 →
        ∃ p1, s1.pre_brightness_buffer = some p1
          ∧ byteAt p1 (s.offset + i * s.bpp + s.byteorder.getD 0 0) = 5
          ∧ byteAt p1 (s.offset + i * s.bpp + s.byteorder.getD 1 0) = 5
          ∧ byteAt p1 (s.offset + i * s.bpp + s.byteorder.getD 2 0) = 5
          ∧ byteAt p1 (s.offset + i * s.bpp + s.byteorder.getD 3 0) = 0) := by
  have hds : s.dotstar_mode = false := by
    cases hds0 : s.dotstar_mode
    · rfl
    · exact absurd ⟨hw, hds0⟩ hwf.not_both
  have h4 : s.bpp = 4 := by
    rw [hwf.bpp_eq, hw]
    simp
  have hlen4 : s.byteorder.length = 4 := by rw [hwf.byteorder_len, h4]
  have hbo0 : s.byteorder.getD 0 0 < s.bpp :=
    hwf.byteorder_lt _ (getD_mem _ 0 (by omega))
  have hbo1 : s.byteorder.getD 1 0 < s.bpp :=
    hwf.byteorder_lt _ (getD_mem _ 1 (by omega))
  have hbo2 : s.byteorder.getD 2 0 < s.bpp :=
    hwf.byteorder_lt _ (getD_mem _ 2 (by omega))
  have hbo3 : s.byteorder.getD 3 0 < s.bpp :=
    hwf.byteorder_lt _ (getD_mem _ 3 (by omega))
  have hbytes : s.bytes = s.bpp * s.pixels := by
    rw [hwf.bytes_eq, hwf.step_eq, hds]
    simp
  have hx0 : i * s.bpp + s.byteorder.getD 0 0 < s.bpp * s.pixels :=
    pixel_byte_lt hi hbo0
  have hx1 : i * s.bpp + s.byteorder.getD 1 0 < s.bpp * s.pixels :=
    pixel_byte_lt hi hbo1
  have hx2 : i * s.bpp + s.byteorder.getD 2 0 < s.bpp * s.pixels :=
    pixel_byte_lt hi hbo2
  have hx3 : i * s.bpp + s.byteorder.getD 3 0 < s.bpp * s.pixels :=
    pixel_byte_lt hi hbo3
  have hppost := hwf.pre_len p hpv
  have hplen : s.offset + s.bytes ≤ p.length := by
    rw [hppost]
    exact hwf.post_len
  have hnd := hwf.byteorder_nodup
  have hne01 : s.byteorder.getD 0 0 ≠ s.byteorder.getD 1 0 :=
    getD_ne_of_nodup hnd (by omega) (by omega) (by decide)
  have hne02 : s.byteorder.getD 0 0 ≠ s.byteorder.getD 2 0 :=
    getD_ne_of_nodup hnd (by omega) (by omega) (by decide)
  have hne12 : s.byteorder.getD 1 0 ≠ s.byteorder.getD 2 0 :=
    getD_ne_of_nodup hnd (by omega) (by omega) (by decide)
  have hne03 : s.byteorder.getD 0 0 ≠ s.byteorder.getD 3 0 :=
    getD_ne_of_nodup hnd (by omega) (by omega) (by decide)
  have hne13 : s.byteorder.getD 1 0 ≠ s.byteorder.getD 3 0 :=
    getD_ne_of_nodup hnd (by omega) (by omega) (by decide)
  have hne23 : s.byteorder.getD 2 0 ≠ s.byteorder.getD 3 0 :=
    getD_ne_of_nodup hnd (by omega) (by omega) (by decide)
  have hX01 : s.offset + i * s.bpp + s.byteorder.getD 0 0
      ≠ s.offset + i * s.bpp + s.byteorder.getD 1 0 :=
    fun h => hne01 (Nat.add_left_cancel h)
  have hX02 : s.offset + i * s.bpp + s.byteorder.getD 0 0
      ≠ s.offset + i * s.bpp + s.byteorder.getD 2 0 :=
    fun h => hne02 (Nat.add_left_cancel h)
  have hX12 : s.offset + i * s.bpp + s.byteorder.getD 1 0
      ≠ s.offset + i * s.bpp + s.byteorder.getD 2 0 :=
    fun h => hne12 (Nat.add_left_cancel h)
  have hX03 : s.offset + i * s.bpp + s.byteorder.getD 0 0
      ≠ s.offset + i * s.bpp + s.byteorder.getD 3 0 :=
    fun h => hne03 (Nat.add_left_cancel h)
  have hX13 : s.offset + i * s.bpp + s.byteorder.getD 1 0
      ≠ s.offset + i * s.bpp + s.byteorder.getD 3 0 :=
    fun h => hne13 (Nat.add_left_cancel h)
  have hX23 : s.offset + i * s.bpp + s.byteorder.getD 2 0
      ≠ s.offset + i * s.bpp + s.byteorder.getD 3 0 :=
    fun h => hne23 (Nat.add_left_cancel h)
  have hparse3 : ∀ a b c : Nat, ¬(a = b ∧ b = c) →
      parse_color s (.seq [a, b, c]) = .ok (a, b, c, 0) := by
    intro a b c hne
    simp [parse_color, h4, hds, hw, hne]
  have hparse_gray : ∀ a : Nat, parse_color s (.seq [a, a, a]) = .ok (0, 0, 0, (a : ℚ)) := by
    intro a
    simp [parse_color, h4, hds, hw]
  have hparse4 : ∀ a b c d : Nat,
      parse_color s (.seq [a, b, c, d]) = .ok (a, b, c, (d : ℚ)) := by
    intro a b c d
    simp [parse_color, h4, hds, hw]
  have hparse_int : ∀ v : Nat, parse_color s (.int v)
      = if (v >>> 16) = ((v >>> 8) &&& 0xFF)
          ∧ ((v >>> 8) &&& 0xFF) = (v &&& 0xFF) then
          .ok (0, 0, 0, ((v >>> 16 : Nat) : ℚ))
        else
          .ok (v >>> 16, (v >>> 8) &&& 0xFF, v &&& 0xFF, 0) := by
    intro v
    by_cases hc : (v >>> 16) = ((v >>> 8) &&& 0xFF)
        ∧ ((v >>> 8) &&& 0xFF) = (v &&& 0xFF)
    · rw [if_pos hc]
      simp [parse_color, hds, hw, h4, hc.1, hc.2]
    · rw [if_neg hc]
      simp [parse_color, hds, hw, h4, hc]
  refine ⟨hparse3, hparse_gray, hparse4, hparse_int, ?_, ?_⟩
  · intro s1 h1
    rw [setitem, hparse_gray 5] at h1
    simp only [set_item_eq s i hi 0 0 0 ((5 : Nat) : ℚ), show', ite_self,
      Except.ok.injEq] at h1
    subst h1
    simp only [hpv, pyInt_natCast]
    rw [if_pos h4]
    refine ⟨_, rfl, ?_, ?_, ?_, ?_⟩
    · have := (byteAt_chain3 (p.set (s.offset + i * s.bpp + s.byteorder.getD 3 0) 5)
        _ _ _ 0 0 0 hX01 hX02 hX12 (by rw [List.length_set]; omega)
        (by rw [List.length_set]; omega) (by rw [List.length_set]; omega)).1
      simpa using this
    · have := (byteAt_chain3 (p.set (s.offset + i * s.bpp + s.byteorder.getD 3 0) 5)
        _ _ _ 0 0 0 hX01 hX02 hX12 (by rw [List.length_set]; omega)
        (by rw [List.length_set]; omega) (by rw [List.length_set]; omega)).2.1
      simpa using this
    · have := (byteAt_chain3 (p.set (s.offset + i * s.bpp + s.byteorder.getD 3 0) 5)
        _ _ _ 0 0 0 hX01 hX02 hX12 (by rw [List.length_set]; omega)
        (by rw [List.length_set]; omega) (by rw [List.length_set]; omega)).2.2
      simpa using this
    · rw [byteAt_set_ne _ _ hX23, byteAt_set_ne _ _ hX13,
        byteAt_set_ne _ _ hX03]
      exact byteAt_set_self p _ 5 (by omega)
  · intro s1 h1
    rw [setitem, hparse4 5 5 5 0] at h1
    simp only [set_item_eq s i hi 5 5 5 ((0 : Nat) : ℚ), show', ite_self,
      Except.ok.injEq] at h1
    subst h1
    simp only [hpv, pyInt_natCast]
    rw [if_pos h4]
    refine ⟨_, rfl, ?_, ?_, ?_, ?_⟩
    · have := (byteAt_chain3 (p.set (s.offset + i * s.bpp + s.byteorder.getD 3 0) 0)
        _ _ _ 5 5 5 hX01 hX02 hX12 (by rw [List.length_set]; omega)
        (by rw [List.length_set]; omega) (by rw [List.length_set]; omega)).1
      simpa using this
    · have := (byteAt_chain3 (p.set (s.offset + i * s.bpp + s.byteorder.getD 3 0) 0)
        _ _ _ 5 5 5 hX01 hX02 hX12 (by rw [List.length_set]; omega)
        (by rw [List.length_set]; omega) (by rw [List.length_set]; omega)).2.1
      simpa using this
    · have := (byteAt_chain3 (p.set (s.offset + i * s.bpp + s.byteorder.getD 3 0) 0)
        _ _ _ 5 5 5 hX01 hX02 hX12 (by rw [List.length_set]; omega)
        (by rw [List.length_set]; omega) (by rw [List.length_set]; omega)).2.2
      simpa using this
    · rw [byteAt_set_ne _ _ hX23, byteAt_set_ne _ _ hX13,
        byteAt_set_ne _ _ hX03]
      exact byteAt_set_self p _ 0 (by omega)

/-- Claim C8 (confirmed): a negative index gets the pixel count added exactly
once: `get_pixel(-1)` equals `get_pixel(n-1)` and `set_pixel(-1,c)` performs
the same write as `set_pixel(n-1,c)`; any index still outside `[0,n)` after
that normalization — in particular `n` itself — makes `get_pixel` and
`set_pixel` raise `IndexError` (returning no modified state). -/
theorem C8_negative_indexing (s : NeoPixel) (hn : 1 ≤ s.pixels) :
    getitem s (-1) = getitem s ((s.pixels : Int) - 1)
    ∧ (∀ c : PixelColor, setitem s (-1) c = setitem s ((s.pixels : Int) - 1) c)
    ∧ (∀ idx : Int,
        ((if idx < 0 then idx + s.pixels else idx) < 0
          ∨ (s.pixels : Int) ≤ (if idx < 0 then idx + s.pixels else idx)) →
        getitem s idx = .error .indexError
        ∧ ∀ (r g b : Nat) (w : ℚ), set_item s idx r g b w = .error .indexError)
    ∧ getitem s (s.pixels : Int) = .error .indexError
    ∧ ∀ (c : PixelColor) (r g b : Nat) (w : ℚ),
        parse_color s c = .ok (r, g, b, w) →
        setitem s (s.pixels : Int) c = .error .indexError := by
  have he : (-1 : Int) + s.pixels = (s.pixels : Int) - 1 := by omega
  have hnn : ¬(((s.pixels : Int) - 1) < 0) := by omega
  have hsi : ∀ (r g b : Nat) (w : ℚ),
      set_item s (-1) r g b w = set_item s ((s.pixels : Int) - 1) r g b w := by
    intro r g b w
    simp only [set_item]
    rw [if_pos (by decide : (-1 : Int) < 0), if_neg hnn, he]
  have hsin : ∀ (r g b : Nat) (w : ℚ),
      set_item s (s.pixels : Int) r g b w = .error .indexError := by
    intro r g b w
    simp only [set_item]
    rw [if_neg (by omega : ¬((s.pixels : Int) < 0)),
      if_pos (Or.inl (le_refl _))]
  refine ⟨?_, ?_, ?_, ?_, ?_⟩
  · simp only [getitem]
    rw [if_pos (by decide : (-1 : Int) < 0), if_neg hnn, he]
  · intro c
    rcases hp : parse_color s c with e | t
    · simp [setitem, hp]
    · obtain ⟨r, g, b, w⟩ := t
      simp only [setitem, hp]
      rw [hsi r g b w]
  · intro idx hout
    constructor
    · simp only [getitem]
      rw [if_pos (Or.symm hout)]
    · intro r g b w
      simp only [set_item]
      rw [if_pos (Or.symm hout)]
  · simp only [getitem]
    rw [if_neg (by omega : ¬((s.pixels : Int) < 0)),
      if_pos (Or.inl (le_refl _))]
  · intro c r g b w hp
    simp only [setitem, hp]
    rw [hsin r g b w]

/-- Claim C10 (confirmed, implicit): on a plain 3-channel spec, decoding a
length-4 sequence does not raise — it slips through every branch and yields
`(0,0,0,0)`, so `set_pixel` with a 4-tuple silently writes black. -/
theorem C10_four_tuple_three_channel (s : NeoPixel) (hwf : WF s)
    (h3 : s.bpp = 3) (hw : s.has_white = false) (hds : s.dotstar_mode = false) :
    (∀ l : List Nat, l.length = 4 → parse_color s (.seq l) = .ok (0, 0, 0, 0))
    ∧ ∀ (i : Nat), i < s.pixels → ∀ (l : List Nat), l.length = 4 → ∀ s1,
        setitem s (i : Int) (.seq l) = .ok s1 →
        byteAt s1.post_brightness_buffer
          (s.offset + i * s.bpp + s.byteorder.getD 0 0) = 0
        ∧ byteAt s1.post_brightness_buffer
          (s.offset + i * s.bpp + s.byteorder.getD 1 0) = 0
        ∧ byteAt s1.post_brightness_buffer
          (s.offset + i * s.bpp + s.byteorder.getD 2 0) = 0 := by
  have hparse : ∀ l : List Nat, l.length = 4 →
      parse_color s (.seq l) = .ok (0, 0, 0, 0) := by
    intro l hl
    simp [parse_color, h3, hl]
  refine ⟨hparse, ?_⟩
  intro i hi l hl s1 h1
  have hlen3 : 3 ≤ s.byteorder.length := by rw [hwf.byteorder_len]; omega
  have hbo0 : s.byteorder.getD 0 0 < s.bpp :=
    hwf.byteorder_lt _ (getD_mem _ 0 (by omega))
  have hbo1 : s.byteorder.getD 1 0 < s.bpp :=
    hwf.byteorder_lt _ (getD_mem _ 1 (by omega))
  have hbo2 : s.byteorder.getD 2 0 < s.bpp :=
    hwf.byteorder_lt _ (getD_mem _ 2 (by omega))
  have hbytes : s.bytes = s.bpp * s.pixels := by
    rw [hwf.bytes_eq, hwf.step_eq, hds]
    simp
  have hx0 : i * s.bpp + s.byteorder.getD 0 0 < s.bpp * s.pixels :=
    pixel_byte_lt hi hbo0
  have hx1 : i * s.bpp + s.byteorder.getD 1 0 < s.bpp * s.pixels :=
    pixel_byte_lt hi hbo1
  have hx2 : i * s.bpp + s.byteorder.getD 2 0 < s.bpp * s.pixels :=
    pixel_byte_lt hi hbo2
  have hplen := hwf.post_len
  have hnd := hwf.byteorder_nodup
  have hX01 : s.offset + i * s.bpp + s.byteorder.getD 0 0
      ≠ s.offset + i * s.bpp + s.byteorder.getD 1 0 :=
    fun h => getD_ne_of_nodup hnd (a := 0) (b := 1) (by omega) (by omega)
      (by decide) (Nat.add_left_cancel h)
  have hX02 : s.offset + i * s.bpp + s.byteorder.getD 0 0
      ≠ s.offset + i * s.bpp + s.byteorder.getD 2 0 :=
    fun h => getD_ne_of_nodup hnd (a := 0) (b := 2) (by omega) (by omega)
      (by decide) (Nat.add_left_cancel h)
  have hX12 : s.offset + i * s.bpp + s.byteorder.getD 1 0
      ≠ s.offset + i * s.bpp + s.byteorder.getD 2 0 :=
    fun h => getD_ne_of_nodup hnd (a := 1) (b := 2) (by omega) (by omega)
      (by decide) (Nat.add_left_cancel h)
  have h34 : ¬(s.bpp = 4) := by omega
  rw [setitem, hparse l hl] at h1
  simp only [set_item_eq s i hi 0 0 0 0, show', ite_self, Except.ok.injEq] at h1
  subst h1
  simp only [Nat.cast_zero, zero_mul, pyInt_zero]
  rw [if_neg h34]
  have hchain := byteAt_chain3 s.post_brightness_buffer
    (s.offset + i * s.bpp + s.byteorder.getD 0 0)
    (s.offset + i * s.bpp + s.byteorder.getD 1 0)
    (s.offset + i * s.bpp + s.byteorder.getD 2 0) 0 0 0
    hX01 hX02 hX12 (by omega) (by omega) (by omega)
  exact ⟨hchain.1, hchain.2.1, hchain.2.2⟩

/-- The state `stateGRB` is well formed. -/
theorem stateGRB_wf : WF stateGRB :=
  ⟨by decide, by decide, by decide, by decide, by decide, by decide, by decide,
    by decide, nofun⟩

/-- The state after `set_pixel(0, (10,20,30))` on `stateGRB`. -/
def stateGRB1 : NeoPixel :=
  ⟨1, 3, [1, 0, 2], "GRB", false, 3, none, [20, 10, 30], 0, false, 3, none, 1, false⟩

/-- Witness for C6 on the 1-pixel `GRB` state: channel offsets of pixel 0 are
R at byte 1, G at byte 0, B at byte 2. -/
theorem C6_witness :
    (∃ rest, getitem (set_brightness stateGRB1 (1/2)) 0
        = .ok ((10 : ℚ) :: (20 : ℚ) :: (30 : ℚ) :: rest))
    ∧ byteAt (set_brightness stateGRB1 (1/2)).post_brightness_buffer 1
        = pyInt ((10 : ℚ) * (1/2))
    ∧ byteAt (set_brightness stateGRB1 (1/2)).post_brightness_buffer 0
        = pyInt ((20 : ℚ) * (1/2))
    ∧ byteAt (set_brightness stateGRB1 (1/2)).post_brightness_buffer 2
        = pyInt ((30 : ℚ) * (1/2)) :=
  C6_round_trip_amended stateGRB stateGRB_wf rfl rfl 0 (by decide) stateGRB1
    (by decide)

/-- A concrete 1-pixel `RGBW` state with the pre-brightness buffer present. -/
def stateRGBW : NeoPixel :=
  ⟨1, 4, [0, 1, 2, 3], "RGBW", true, 4, some [0, 0, 0, 0], [0, 0, 0, 0], 0,
    false, 4, none, 1, false⟩

/-- The state `stateRGBW` is well formed. -/
theorem stateRGBW_wf : WF stateRGBW :=
  ⟨by decide, by decide, by decide, by decide, by decide, by decide, by decide,
    by decide, fun p hp => by cases hp; rfl⟩

/-- The state after `set_pixel(0, (5,5,5))` on `stateRGBW`. -/
def stateRGBW1 : NeoPixel :=
  ⟨1, 4, [0, 1, 2, 3], "RGBW", true, 4, some [0, 0, 0, 5], [0, 0, 0, 5], 0,
    false, 4, none, 1, false⟩

/-- Witness for C7 on the 1-pixel `RGBW` state: the gray packed integer
`0x050505` decodes to `(0,0,0,5)` by white inference, and `(5,5,5)` stores
`(0,0,0,5)` in the pre-brightness buffer. -/
theorem C7_witness :
    parse_color stateRGBW (.int 328965) = .ok (0, 0, 0, ((5 : Nat) : ℚ))
    ∧ ∃ p1, stateRGBW1.pre_brightness_buffer = some p1
      ∧ byteAt p1 0 = 0 ∧ byteAt p1 1 = 0 ∧ byteAt p1 2 = 0 ∧ byteAt p1 3 = 5 :=
  have h := C7_white_inference stateRGBW stateRGBW_wf rfl [0, 0, 0, 0] rfl 0
    (by decide)
  ⟨h.2.2.2.1 328965, h.2.2.2.2.1 stateRGBW1 (by decide)⟩

/-- A concrete 3-pixel `GRB` state. -/
def stateGRB3 : NeoPixel :=
  ⟨3, 9, [1, 0, 2], "GRB", false, 3, none, [0, 0, 0, 0, 0, 0, 0, 0, 0], 0,
    false, 3, none, 1, false⟩

/-- Witness for C8 on a 3-pixel `GRB` state. -/
theorem C8_witness :
    getitem stateGRB3 (-1) = getitem stateGRB3 ((3 : Int) - 1)
    ∧ getitem stateGRB3 3 = .error .indexError :=
  have h := C8_negative_indexing stateGRB3 (by decide)
  ⟨h.1, h.2.2.2.1⟩

/-- Witness for C10: a length-4 tuple decodes to black on a 3-channel state. -/
theorem C10_witness :
    parse_color stateGRB (.seq [5, 6, 7, 8]) = .ok (0, 0, 0, 0) :=
  (C10_four_tuple_three_channel stateGRB stateGRB_wf rfl rfl rfl).1
    [5, 6, 7, 8] rfl

end FakeRpi
